import Mathlib

/-!
Shallow embedding of the image-processing utilities and the file-upload tool
of the `mcp-chrome` repository, together with theorems checking the
natural-language specification against the embedded code.

Conventions:
* TypeScript numbers that only ever hold quality/scale/geometry values are
  modelled as rationals (`ℚ`); sizes and tab ids as naturals (`ℕ`).
* The opaque image encoder (`compressImageOnce` / `convertToBlob` +
  `getBase64Size`) is abstracted by an oracle `size : ℚ → ℚ → ℕ` giving the
  measured base64 length of the encode at a given (scale, quality); the
  source measures the re-encoded output of a fixed input image and format,
  so the measurement is exactly a function of (scale, quality).
* Fallible operations return `Except String _`; thrown `Error`s become the
  `Except.error` branch carrying the source's message (template-literal
  interpolations are elided).
-/

/-! ## Compression configuration (`COMPRESSION_CONFIG` in the source) -/

def MAX_ATTEMPTS : ℕ := 10

def MIN_QUALITY : ℚ := mkRat 2 10

def MIN_SCALE : ℚ := mkRat 3 10

def QUALITY_THRESHOLD : ℚ := mkRat 3 10

def REDUCTION_FACTOR : ℚ := mkRat 85 100

/-- One iteration of the `compressImage` size loop: the body of the
`while` loop that adjusts `(currentScale, currentQuality)`.  Returns the pair
(new scale, new quality). -/
def compressStep (scale quality : ℚ) : ℚ × ℚ :=
  if QUALITY_THRESHOLD < quality then
    (scale, max MIN_QUALITY (quality * REDUCTION_FACTOR))
  else
    (max MIN_SCALE (scale * REDUCTION_FACTOR), quality)

/-- The `(scale, quality)` parameter pairs at which `compressImage` performs
encode attempts, in order: the pre-loop attempt followed by one entry per
loop iteration.  `fuel` is the number of loop iterations still allowed
(`MAX_ATTEMPTS - attempts` in the source). -/
def compressTrace (size : ℚ → ℚ → ℕ) (maxSize : ℕ) : ℕ → ℚ → ℚ → List (ℚ × ℚ)
  | 0, scale, quality => [(scale, quality)]
  | fuel + 1, scale, quality =>
    if size scale quality ≤ maxSize then [(scale, quality)]
    else
      (scale, quality) ::
        compressTrace size maxSize fuel (compressStep scale quality).1
          (compressStep scale quality).2

/-- The `(scale, quality)` pair of the result returned by the size loop of
`compressImage` (the result of the last encode attempt). -/
def compressImageLoop (size : ℚ → ℚ → ℕ) (maxSize : ℕ) : ℕ → ℚ → ℚ → ℚ × ℚ
  | 0, scale, quality => (scale, quality)
  | fuel + 1, scale, quality =>
    if size scale quality ≤ maxSize then (scale, quality)
    else
      compressImageLoop size maxSize fuel (compressStep scale quality).1
        (compressStep scale quality).2

/-- `compressImage`: without `maxSizeBytes` a single encode pass at the given
parameters; with `maxSizeBytes` the iterative size loop.  The result is the
`(scale, quality)` pair of the returned encode. -/
def compressImage (size : ℚ → ℚ → ℕ) (scale quality : ℚ)
    (maxSizeBytes : Option ℕ) : ℚ × ℚ :=
  match maxSizeBytes with
  | none => (scale, quality)
  | some m => compressImageLoop size m MAX_ATTEMPTS scale quality

/-- Checks the loop structure of an attempt trace: every attempt but the last
was over budget, and each next attempt's parameters are obtained from the
previous ones by `compressStep`. -/
def traceSteps (size : ℚ → ℚ → ℕ) (maxSize : ℕ) : List (ℚ × ℚ) → Bool
  | [] => true
  | [_] => true
  | a :: b :: rest =>
    decide (maxSize < size a.1 a.2) && decide (b = compressStep a.1 a.2) &&
      traceSteps size maxSize (b :: rest)

/-! ## `cropAndResizeImage` -/

structure CropRect where
  x : ℚ
  y : ℚ
  width : ℚ
  height : ℚ
deriving DecidableEq, Repr

/-- The boundary clamping performed by `cropAndResizeImage` on the requested
crop rectangle before any drawing. -/
def clampCrop (imgWidth imgHeight : ℚ) (rect : CropRect) : CropRect :=
  let sx₀ := rect.x
  let sy₀ := rect.y
  let sw₀ := rect.width
  let sh₀ := rect.height
  let sx := if sx₀ < 0 then 0 else sx₀
  let sw₁ := if sx₀ < 0 then sw₀ + sx₀ else sw₀
  let sy := if sy₀ < 0 then 0 else sy₀
  let sh₁ := if sy₀ < 0 then sh₀ + sy₀ else sh₀
  let sw := if imgWidth < sx + sw₁ then imgWidth - sx else sw₁
  let sh := if imgHeight < sy + sh₁ then imgHeight - sy else sh₁
  ⟨sx, sy, sw, sh⟩

/-- Successful output of `cropAndResizeImage`: canvas dimensions and the
effective source region drawn from. -/
structure CropOutput where
  canvasWidth : ℚ
  canvasHeight : ℚ
  source : CropRect
deriving DecidableEq, Repr

def invalidCropSizeMsg : String :=
  "Invalid calculated crop size (<=0). Element may not be visible or fully captured."

/-- TypeScript truthiness of an optional numeric argument (`undefined` and
`0` are falsy). -/
def truthyNum : Option ℚ → Bool
  | none => false
  | some v => !(v == 0)

/-- `cropAndResizeImage` on an already-decoded source raster of dimensions
`imgWidth × imgHeight`. -/
def cropAndResizeImage (imgWidth imgHeight : ℚ) (rect : CropRect) (dpr : ℚ)
    (targetWidthOpt targetHeightOpt : Option ℚ) : Except String CropOutput :=
  let c := clampCrop imgWidth imgHeight rect
  if c.width ≤ 0 ∨ c.height ≤ 0 then
    Except.error invalidCropSizeMsg
  else
    let fw := if truthyNum targetWidthOpt then (targetWidthOpt.getD 0) * dpr else c.width
    let fh := if truthyNum targetHeightOpt then (targetHeightOpt.getD 0) * dpr else c.height
    Except.ok ⟨fw, fh, c⟩

def exceptOk {ε α : Type} : Except ε α → Bool
  | Except.ok _ => true
  | Except.error _ => false

/-! ## `stitchImages` -/

/-- One input part for `stitchImages`.  `decoded = none` models a part whose
`createImageBitmapFromUrl` decode throws; `decoded = some (w, h)` gives the
decoded bitmap dimensions. -/
structure ImagePart where
  decoded : Option (ℚ × ℚ)
  y : ℚ
deriving DecidableEq, Repr

/-- One `ctx.drawImage` call recorded by the stitcher: source size
`(sWidth, sHeight)` drawn at destination `(dx, dy)`. -/
structure DrawOp where
  sWidth : ℚ
  sHeight : ℚ
  dx : ℚ
  dy : ℚ
deriving DecidableEq, Repr

/-- The draw operation `stitchImages` performs for one part, if any:
a part that fails to decode, or whose clipped source height is ≤ 0,
contributes no draw. -/
def partDrawOp (totalHeightPx : ℚ) (part : ImagePart) : Option DrawOp :=
  match part.decoded with
  | none => none
  | some (w, h) =>
    let sHeight := if totalHeightPx < part.y + h then totalHeightPx - part.y else h
    if sHeight ≤ 0 then none
    else some ⟨w, sHeight, 0, part.y⟩

/-- Output of `stitchImages`: destination canvas dimensions, the initial
white background fill, and the sequence of draw calls. -/
structure StitchResult where
  width : ℚ
  height : ℚ
  fillStyle : String
  fillRect : ℚ × ℚ × ℚ × ℚ
  ops : List DrawOp
deriving DecidableEq, Repr

/-- `stitchImages`: allocates a `totalWidthPx × totalHeightPx` canvas, fills
it opaque white, then draws each part in sequence (decode failures are
logged and skipped). -/
def stitchImages (parts : List ImagePart) (totalWidthPx totalHeightPx : ℚ) :
    StitchResult :=
  { width := totalWidthPx
    height := totalHeightPx
    fillStyle := "#FFFFFF"
    fillRect := (0, 0, totalWidthPx, totalHeightPx)
    ops := parts.filterMap (partDrawOp totalHeightPx) }

/-! ## `FileUploadTool` (file-upload.ts) -/

/-- TypeScript truthiness of an optional string argument (`undefined` and the
empty string are falsy). -/
def truthyStr : Option String → Bool
  | none => false
  | some s => !(s == "")

/-- Parameters of `FileUploadTool.execute`. -/
structure FileUploadToolParams where
  selector : String
  filePath : Option String := none
  fileUrl : Option String := none
  base64Data : Option String := none
  fileName : Option String := none
  multiple : Bool := false
deriving DecidableEq, Repr

/-- The debugger-protocol commands `execute` can send via
`chrome.debugger.sendCommand`. -/
inductive CdpStep
  | domEnable
  | runtimeEnable
  | getDocument
  | querySelector
  | describeNode
  | setFileInputFiles
  | evaluateChange
deriving DecidableEq, Repr

/-- Observable debugger interactions of one `execute` call. -/
inductive Effect
  | getTargets
  | attach (tabId : ℕ)
  | cmd (tabId : ℕ) (step : CdpStep)
  | detachCmd (tabId : ℕ)
deriving DecidableEq, Repr

/-- One entry of `chrome.debugger.getTargets()`. -/
structure DebuggerTarget where
  tabId : Option ℕ
  attached : Bool
  extensionId : Option String
deriving DecidableEq, Repr

/-- The environment one `execute` call runs against: the browser state and
the outcomes of the asynchronous calls the code awaits. -/
structure ExecEnv where
  /-- The id of the active tab (`chrome.tabs.query`), if any. -/
  activeTabId : Option ℕ
  /-- Outcome of `prepareFileFromRemote` (`none` = resolved null). -/
  prepareFileResult : Option String
  /-- `chrome.debugger.getTargets()`. -/
  targets : List DebuggerTarget
  /-- `chrome.runtime.id`. -/
  runtimeId : String
  /-- Whether `chrome.debugger.attach` succeeds. -/
  attachOk : Bool
  /-- Node id returned by `DOM.querySelector` (0 = not found). -/
  queryNodeId : ℕ
  /-- `node.nodeName` returned by `DOM.describeNode`. -/
  nodeName : String
  /-- `node.attributes` returned by `DOM.describeNode`. -/
  nodeAttributes : List String
  /-- Which `sendCommand` steps reject. -/
  failing : CdpStep → Bool

/-- Result of one `execute` call.  `validationError` marks the two
precondition checks at the top of `execute` (the spec's `ValidationError`
class); `error` every other `createErrorResponse`; `success` carries the
`files` list and `fileCount` of the success payload. -/
inductive UploadResult
  | validationError (message : String)
  | error (message : String)
  | success (files : List String) (fileCount : ℕ)
deriving DecidableEq, Repr

def isValidationError : UploadResult → Bool
  | UploadResult.validationError _ => true
  | _ => false

def selectorRequiredMsg : String := "Selector is required for file upload"

def sourceRequiredMsg : String := "One of filePath, fileUrl, or base64Data must be provided"

def noActiveTabMsg : String := "No active tab found"

def prepareFailedMsg : String := "Failed to prepare file for upload"

def attachedElsewhereMsg : String :=
  "Debugger is already attached to this tab by another extension or DevTools"

def attachFailedMsg : String := "Failed to attach debugger"

def cdpFailureMsg : String := "Protocol command rejected"

def elementNotFoundMsg : String := "Element with selector not found"

def notInputElementMsg : String := "Element with selector is not an input element"

def notFileInputMsg : String := "Element with selector is not a file input"

/-- The pairwise scan of `node.attributes` looking for a `type`/`file`
name/value pair. -/
def isFileInputAttrs : List String → Bool
  | "type" :: v :: rest => if v == "file" then true else isFileInputAttrs rest
  | _ :: _ :: rest => isFileInputAttrs rest
  | _ => false

/-- `targets.find((t) => t.tabId === tabId && t.attached)`. -/
def findAttachedTarget (targets : List DebuggerTarget) (tabId : ℕ) :
    Option DebuggerTarget :=
  targets.find? (fun t => t.tabId == some tabId && t.attached)

namespace FileUploadTool

/-- `FileUploadTool.attachDebugger`: checks existing targets, then either
no-ops (our own attachment), throws (foreign attachment), or attaches and
records the tab in `activeDebuggers`.  Returns the effects performed and
either the new `activeDebuggers` state or the thrown message. -/
def attachDebugger (env : ExecEnv) (tabId : ℕ) (st : Finset ℕ) :
    List Effect × Except String (Finset ℕ) :=
  match findAttachedTarget env.targets tabId with
  | some tgt =>
    if tgt.extensionId == some env.runtimeId then
      ([Effect.getTargets], Except.ok st)
    else
      ([Effect.getTargets], Except.error attachedElsewhereMsg)
  | none =>
    if env.attachOk then
      ([Effect.getTargets, Effect.attach tabId], Except.ok (insert tabId st))
    else
      ([Effect.getTargets, Effect.attach tabId], Except.error attachFailedMsg)

/-- `FileUploadTool.detachDebugger`: no-op unless `activeDebuggers` holds the
tab; otherwise sends `chrome.debugger.detach` and deletes the entry (the
delete runs in a `finally`, so it happens even when the detach call
rejects). -/
def detachDebugger (tabId : ℕ) (st : Finset ℕ) : List Effect × Finset ℕ :=
  if tabId ∈ st then ([Effect.detachCmd tabId], st.erase tabId)
  else ([], st)

/-- The `catch` block of `execute`: detach if `activeDebuggers` holds the
tab, then return the wrapped error response. -/
def catchCleanup (message : String) (tabId : ℕ) (st : Finset ℕ)
    (effs : List Effect) : UploadResult × List Effect × Finset ℕ :=
  (UploadResult.error ("Error uploading file: " ++ message),
    effs ++ (detachDebugger tabId st).1, (detachDebugger tabId st).2)

/-- The ordered stages of the straight-line CDP part of `execute` after the
debugger is attached: each stage lists the commands it sends, whether it
throws, and the message it throws with.  The order mirrors the source:
enable the `DOM` and `Runtime` domains, fetch the document, resolve the
selector, reject a missing node, describe the node, reject a non-`INPUT`
node and a non-file input, set the files, dispatch the change event. -/
def uploadStages (env : ExecEnv) (t : ℕ) : List (List Effect × Bool × String) :=
  [([Effect.cmd t CdpStep.domEnable], env.failing CdpStep.domEnable, cdpFailureMsg),
   ([Effect.cmd t CdpStep.runtimeEnable], env.failing CdpStep.runtimeEnable, cdpFailureMsg),
   ([Effect.cmd t CdpStep.getDocument], env.failing CdpStep.getDocument, cdpFailureMsg),
   ([Effect.cmd t CdpStep.querySelector], env.failing CdpStep.querySelector, cdpFailureMsg),
   ([], env.queryNodeId == 0, elementNotFoundMsg),
   ([Effect.cmd t CdpStep.describeNode], env.failing CdpStep.describeNode, cdpFailureMsg),
   ([], !(env.nodeName == "INPUT"), notInputElementMsg),
   ([], !isFileInputAttrs env.nodeAttributes, notFileInputMsg),
   ([Effect.cmd t CdpStep.setFileInputFiles], env.failing CdpStep.setFileInputFiles, cdpFailureMsg),
   ([Effect.cmd t CdpStep.evaluateChange], env.failing CdpStep.evaluateChange, cdpFailureMsg)]

/-- Runs the stages in order: the first throwing stage lands in the `catch`
block (detach if attached, wrapped error); when every stage passes, the
debugger is detached and the success payload built from `files` is
returned. -/
def runStages (t : ℕ) (files : List String) (st : Finset ℕ) :
    List (List Effect × Bool × String) → List Effect →
      UploadResult × List Effect × Finset ℕ
  | [], effs =>
    (UploadResult.success files files.length,
      effs ++ (FileUploadTool.detachDebugger t st).1,
      (FileUploadTool.detachDebugger t st).2)
  | (es, fails, msg) :: rest, effs =>
    if fails then FileUploadTool.catchCleanup msg t st (effs ++ es)
    else runStages t files st rest (effs ++ es)

/-- The CDP command sequence of `execute` after the debugger is attached. -/
def commandChain (env : ExecEnv) (t : ℕ) (files : List String)
    (st : Finset ℕ) (effs : List Effect) :
    UploadResult × List Effect × Finset ℕ :=
  runStages t files st (uploadStages env t) effs

/-- The part of `execute` from debugger attachment onwards, with the staged
`files` list already determined. -/
def executeWithFiles (env : ExecEnv) (tabId : ℕ) (files : List String)
    (st : Finset ℕ) : UploadResult × List Effect × Finset ℕ :=
  match attachDebugger env tabId st with
  | (effs, Except.error msg) => catchCleanup msg tabId st effs
  | (effs, Except.ok st1) => commandChain env tabId files st1 effs

/-- `FileUploadTool.execute`, as a function of the call parameters, the
environment, and the incoming `activeDebuggers` state.  Returns the tool
result, the debugger effects performed, and the final `activeDebuggers`
state.  Validation mirrors the source: an empty selector and an absent
source are rejected up front; a present `filePath` takes precedence, and
otherwise the file is staged through `prepareFileFromRemote` (a null result
is an error before any debugger work). -/
def execute (p : FileUploadToolParams) (env : ExecEnv) (st : Finset ℕ) :
    UploadResult × List Effect × Finset ℕ :=
  if p.selector == "" then
    (UploadResult.validationError selectorRequiredMsg, [], st)
  else if !truthyStr p.filePath && !truthyStr p.fileUrl && !truthyStr p.base64Data then
    (UploadResult.validationError sourceRequiredMsg, [], st)
  else
    match env.activeTabId with
    | none => (UploadResult.error noActiveTabMsg, [], st)
    | some tabId =>
      if truthyStr p.filePath then
        executeWithFiles env tabId [p.filePath.getD ""] st
      else
        match env.prepareFileResult with
        | none => (UploadResult.error prepareFailedMsg, [], st)
        | some path => executeWithFiles env tabId [path] st

/-- The `chrome.tabs.onRemoved` listener installed by the constructor:
`cleanupDebugger` (an unconditional map delete) guarded by a `has` check. -/
def onTabRemoved (st : Finset ℕ) (tabId : ℕ) : Finset ℕ :=
  if tabId ∈ st then st.erase tabId else st

/-! ### `prepareFileFromRemote` -/

/-- How one `prepareFileFromRemote` call completes. -/
inductive PrepareOutcome
  /-- `chrome.runtime.sendMessage` itself rejects. -/
  | sendFailure
  /-- The 30 s timer fires and no matching response ever arrives. -/
  | timeoutFired
  /-- The 30 s timer fires first and a matching response arrives later. -/
  | lateResponse (ok : Bool) (filePath : Option String)
  /-- A matching `file_operation_response` arrives before the timer fires. -/
  | responseArrived (ok : Bool) (filePath : Option String)
deriving DecidableEq, Repr

/-- Observable outcome of one `prepareFileFromRemote` call: how often the
inbound-message listener was added/removed, whether the timer was cancelled,
the value the promise resolves with (`none` = null), and how many outbound
send attempts were made. -/
structure PrepareResultTrace where
  listenerAdds : ℕ
  listenerRemoves : ℕ
  timerCleared : Bool
  resolved : Option String
  sendAttempts : ℕ
deriving DecidableEq, Repr

def PREPARE_TIMEOUT_MS : ℕ := 30000

/-- `FileUploadTool.prepareFileFromRemote`: one listener is added and one
outbound message sent; the completion path determines the cleanup performed.
The timeout callback only logs and resolves null — it does not remove the
listener (that happens only if a matching response arrives later); the
matching-response and send-failure paths clear the timer and remove the
listener. -/
def prepareFileFromRemote : PrepareOutcome → PrepareResultTrace
  | PrepareOutcome.sendFailure =>
    { listenerAdds := 1, listenerRemoves := 1, timerCleared := true
      resolved := none, sendAttempts := 1 }
  | PrepareOutcome.timeoutFired =>
    { listenerAdds := 1, listenerRemoves := 0, timerCleared := false
      resolved := none, sendAttempts := 1 }
  | PrepareOutcome.lateResponse _ _ =>
    { listenerAdds := 1, listenerRemoves := 1, timerCleared := true
      resolved := none, sendAttempts := 1 }
  | PrepareOutcome.responseArrived ok fp =>
    { listenerAdds := 1, listenerRemoves := 1, timerCleared := true
      resolved := if ok && truthyStr fp then fp else none, sendAttempts := 1 }

end FileUploadTool

/-- Boolean membership test on effect lists. -/
def hasEffect (e : Effect) : List Effect → Bool
  | [] => false
  | a :: rest => decide (a = e) || hasEffect e rest

/-- A benign environment: an active tab, a cooperative side channel, no
existing debugger attachment, and a resolvable file input. -/
def benignEnv : ExecEnv :=
  { activeTabId := some 1
    prepareFileResult := some "/tmp/staged.png"
    targets := []
    runtimeId := "self-extension"
    attachOk := true
    queryNodeId := 7
    nodeName := "INPUT"
    nodeAttributes := ["type", "file"]
    failing := fun _ => false }

/-- A call supplying both a local path and a remote URL at once. -/
def bothSourcesParams : FileUploadToolParams :=
  { selector := "#file-input"
    filePath := some "/tmp/a.png"
    fileUrl := some "http://example.com/a.png" }

/-- A call supplying only a local path. -/
def localPathParams : FileUploadToolParams :=
  { selector := "#file-input"
    filePath := some "/tmp/a.png" }

/-- A call with an empty selector. -/
def emptySelectorParams : FileUploadToolParams :=
  { selector := ""
    filePath := some "/tmp/a.png" }

/-- An environment in which tab 1 is already attached by a different
extension. -/
def foreignAttachEnv : ExecEnv :=
  { benignEnv with
    targets := [{ tabId := some 1, attached := true, extensionId := some "other-extension" }] }

/-- An environment in which tab 1 is already attached by this extension. -/
def selfAttachEnv : ExecEnv :=
  { benignEnv with
    targets := [{ tabId := some 1, attached := true, extensionId := some "self-extension" }] }

/-! ## Supporting lemmas: the compression size loop -/

theorem compressTrace_cons (size : ℚ → ℚ → ℕ) (m fuel : ℕ) (s q : ℚ) :
    ∃ t, compressTrace size m fuel s q = (s, q) :: t := by
  cases fuel with
  | zero => exact ⟨[], rfl⟩
  | succ n =>
    by_cases h : size s q ≤ m
    · exact ⟨[], by simp [compressTrace, h]⟩
    · exact ⟨compressTrace size m n (compressStep s q).1 (compressStep s q).2,
        by simp [compressTrace, h]⟩

theorem compressTrace_ne_nil (size : ℚ → ℚ → ℕ) (m fuel : ℕ) (s q : ℚ) :
    compressTrace size m fuel s q ≠ [] := by
  obtain ⟨t, ht⟩ := compressTrace_cons size m fuel s q
  simp [ht]

theorem getLastD_of_ne_nil {α : Type} (l : List α) (h : l ≠ []) (d d' : α) :
    l.getLastD d = l.getLastD d' := by
  cases l with
  | nil => exact absurd rfl h
  | cons a t => simp [List.getLastD]

theorem compressImageLoop_eq_getLastD (size : ℚ → ℚ → ℕ) (m : ℕ) :
    ∀ (fuel : ℕ) (s q : ℚ),
      compressImageLoop size m fuel s q =
        (compressTrace size m fuel s q).getLastD (s, q) := by
  intro fuel
  induction fuel with
  | zero => intro s q; rfl
  | succ n ih =>
    intro s q
    by_cases h : size s q ≤ m
    · simp [compressImageLoop, compressTrace, h]
    · have hne := compressTrace_ne_nil size m n (compressStep s q).1 (compressStep s q).2
      simp only [compressImageLoop, compressTrace, h, if_neg, ite_false]
      rw [ih, List.getLastD_cons]
      exact getLastD_of_ne_nil _ hne _ _

theorem traceSteps_compressTrace (size : ℚ → ℚ → ℕ) (m : ℕ) :
    ∀ (fuel : ℕ) (s q : ℚ),
      traceSteps size m (compressTrace size m fuel s q) = true := by
  intro fuel
  induction fuel with
  | zero => intro s q; rfl
  | succ n ih =>
    intro s q
    by_cases h : size s q ≤ m
    · simp [compressTrace, h, traceSteps]
    · obtain ⟨t, ht⟩ :=
        compressTrace_cons size m n (compressStep s q).1 (compressStep s q).2
      have ih' := ih (compressStep s q).1 (compressStep s q).2
      rw [ht] at ih'
      simp only [compressTrace, h, ite_false, ht, traceSteps, Bool.and_eq_true,
        decide_eq_true_eq]
      exact ⟨⟨lt_of_not_le h, trivial⟩, ih'⟩

theorem compressTrace_length_le (size : ℚ → ℚ → ℕ) (m : ℕ) :
    ∀ (fuel : ℕ) (s q : ℚ), (compressTrace size m fuel s q).length ≤ fuel + 1 := by
  intro fuel
  induction fuel with
  | zero => intro s q; simp [compressTrace]
  | succ n ih =>
    intro s q
    by_cases h : size s q ≤ m
    · simp [compressTrace, h]
    · simp only [compressTrace, h, ite_false, List.length_cons]
      exact Nat.succ_le_succ (ih _ _)

theorem compressImageLoop_budget_or_cap (size : ℚ → ℚ → ℕ) (m : ℕ) :
    ∀ (fuel : ℕ) (s q : ℚ),
      size (compressImageLoop size m fuel s q).1 (compressImageLoop size m fuel s q).2 ≤ m ∨
      (compressTrace size m fuel s q).length = fuel + 1 := by
  intro fuel
  induction fuel with
  | zero => intro s q; right; rfl
  | succ n ih =>
    intro s q
    by_cases h : size s q ≤ m
    · left; simp [compressImageLoop, h]
    · rcases ih (compressStep s q).1 (compressStep s q).2 with hb | hc
      · left; simp only [compressImageLoop, h, ite_false]; exact hb
      · right; simp [compressTrace, h, hc]

theorem compressStep_quality_floor (s q : ℚ) (h : MIN_QUALITY ≤ q) :
    MIN_QUALITY ≤ (compressStep s q).2 := by
  unfold compressStep
  split
  · exact le_max_left _ _
  · exact h

theorem compressStep_scale_floor (s q : ℚ) (h : MIN_SCALE ≤ s) :
    MIN_SCALE ≤ (compressStep s q).1 := by
  unfold compressStep
  split
  · exact h
  · exact le_max_left _ _

theorem compressTrace_floors (size : ℚ → ℚ → ℕ) (m : ℕ) :
    ∀ (fuel : ℕ) (s q : ℚ), MIN_SCALE ≤ s → MIN_QUALITY ≤ q →
      ((compressTrace size m fuel s q).all fun p =>
        decide (MIN_SCALE ≤ p.1) && decide (MIN_QUALITY ≤ p.2)) = true := by
  intro fuel
  induction fuel with
  | zero => intro s q hs hq; simp [compressTrace, hs, hq]
  | succ n ih =>
    intro s q hs hq
    by_cases h : size s q ≤ m
    · simp [compressTrace, h, hs, hq]
    · simp only [compressTrace, h, ite_false, List.all_cons, Bool.and_eq_true,
        decide_eq_true_eq]
      exact ⟨⟨hs, hq⟩,
        ih _ _ (compressStep_scale_floor s q hs) (compressStep_quality_floor s q hq)⟩

theorem compressStep_scale_untouched_or_low (s q : ℚ) :
    (compressStep s q).1 = s ∨ q ≤ QUALITY_THRESHOLD := by
  by_cases h : QUALITY_THRESHOLD < q
  · left; simp [compressStep, h]
  · right; exact le_of_not_lt h

/-- C1: with `maxSizeBytes` set, `compressImage` runs a loop whose every
iteration applies `compressStep` — above the 0.3 quality threshold it
multiplies quality by 0.85 (clamped at 0.2) leaving scale unchanged,
otherwise it multiplies scale by 0.85 (clamped at 0.3) leaving quality
unchanged; every attempt before the last measured over budget
(so the first within-budget attempt is returned), the returned result is the
last attempt, and the final attempt is either within budget or the loop
stopped at the attempt cap (without raising an error). -/
theorem compressImage_sizeLoop_policy (size : ℚ → ℚ → ℕ) (m : ℕ) (scale quality : ℚ) :
    (∀ s q, compressStep s q =
      if QUALITY_THRESHOLD < q then (s, max MIN_QUALITY (q * REDUCTION_FACTOR))
      else (max MIN_SCALE (s * REDUCTION_FACTOR), q)) ∧
    compressImage size scale quality (some m) =
      (compressTrace size m MAX_ATTEMPTS scale quality).getLastD (scale, quality) ∧
    traceSteps size m (compressTrace size m MAX_ATTEMPTS scale quality) = true ∧
    (size (compressImage size scale quality (some m)).1
        (compressImage size scale quality (some m)).2 ≤ m ∨
      (compressTrace size m MAX_ATTEMPTS scale quality).length = MAX_ATTEMPTS + 1) :=
  ⟨fun _ _ => rfl,
    compressImageLoop_eq_getLastD size m MAX_ATTEMPTS scale quality,
    traceSteps_compressTrace size m MAX_ATTEMPTS scale quality,
    compressImageLoop_budget_or_cap size m MAX_ATTEMPTS scale quality⟩

/-- C6: with `maxSizeBytes` set, `compressImage` performs at most
`MAX_ATTEMPTS = 10` loop encodes beyond the initial one (the attempt list has
at most 11 entries); starting from parameters above the floors, quality never
drops below 0.2 and scale never drops below 0.3 at any attempt; and an
iteration changes scale only when its quality is already at or below the 0.3
threshold. -/
theorem compressImage_attempt_bounds (size : ℚ → ℚ → ℕ) (m : ℕ) (scale quality : ℚ)
    (hs : MIN_SCALE ≤ scale) (hq : MIN_QUALITY ≤ quality) :
    (compressTrace size m MAX_ATTEMPTS scale quality).length ≤ MAX_ATTEMPTS + 1 ∧
    ((compressTrace size m MAX_ATTEMPTS scale quality).all fun p =>
      decide (MIN_SCALE ≤ p.1) && decide (MIN_QUALITY ≤ p.2)) = true ∧
    (∀ s q, (compressStep s q).1 = s ∨ q ≤ QUALITY_THRESHOLD) :=
  ⟨compressTrace_length_le size m MAX_ATTEMPTS scale quality,
    compressTrace_floors size m MAX_ATTEMPTS scale quality hs hq,
    compressStep_scale_untouched_or_low⟩

theorem compressImage_attempt_bounds_witness :
    MIN_SCALE ≤ mkRat 1 1 ∧ MIN_QUALITY ≤ mkRat 4 5 ∧
    (compressTrace (fun _ _ => 100) 10 MAX_ATTEMPTS (mkRat 1 1) (mkRat 4 5)).length ≤
      MAX_ATTEMPTS + 1 :=
  ⟨by decide, by decide,
    (compressImage_attempt_bounds (fun _ _ => 100) 10 (mkRat 1 1) (mkRat 4 5)
      (by decide) (by decide)).1⟩

/-! ## Supporting lemmas: cropping and stitching -/

theorem partDrawOp_sound (h : ℚ) (part : ImagePart) (op : DrawOp)
    (hop : partDrawOp h part = some op) :
    0 < op.sHeight ∧ op.dy + op.sHeight ≤ h ∧ op.dx = 0 := by
  unfold partDrawOp at hop
  cases hd : part.decoded with
  | none => rw [hd] at hop; exact absurd hop (by simp)
  | some wh =>
    rw [hd] at hop
    obtain ⟨w, ph⟩ := wh
    simp only at hop
    by_cases hcl : h < part.y + ph
    · rw [if_pos hcl] at hop
      by_cases hz : h - part.y ≤ 0
      · rw [if_pos hz] at hop; exact absurd hop (by simp)
      · rw [if_neg hz] at hop
        obtain rfl := (Option.some_inj.mp hop).symm
        refine ⟨lt_of_not_le hz, by simp only []; linarith, rfl⟩
    · rw [if_neg hcl] at hop
      by_cases hz : ph ≤ 0
      · rw [if_pos hz] at hop; exact absurd hop (by simp)
      · rw [if_neg hz] at hop
        obtain rfl := (Option.some_inj.mp hop).symm
        refine ⟨lt_of_not_le hz, by simp only []; linarith, rfl⟩

/-- C8: `stitchImages` allocates exactly a `totalWidth × totalHeight` canvas
and first fills it opaque white over the full extent; each surviving part is
drawn at x = 0 with its source height clipped so that the draw never exceeds
`totalHeight` and skipped when the clipped height is ≤ 0; parts that fail to
decode contribute no draw operation and never abort the stitch. -/
theorem stitchImages_spec (parts : List ImagePart) (w h : ℚ) :
    (stitchImages parts w h).width = w ∧
    (stitchImages parts w h).height = h ∧
    (stitchImages parts w h).fillStyle = "#FFFFFF" ∧
    (stitchImages parts w h).fillRect = (0, 0, w, h) ∧
    (stitchImages parts w h).ops = parts.filterMap (partDrawOp h) ∧
    ((stitchImages parts w h).ops.all fun op =>
      decide (0 < op.sHeight) && decide (op.dy + op.sHeight ≤ h) &&
        decide (op.dx = 0)) = true ∧
    (∀ y, partDrawOp h ⟨none, y⟩ = none) := by
  refine ⟨rfl, rfl, rfl, rfl, rfl, ?_, fun y => rfl⟩
  simp only [stitchImages, List.all_eq_true, List.mem_filterMap, Bool.and_eq_true,
    decide_eq_true_eq]
  rintro op ⟨part, _, hop⟩
  obtain ⟨h1, h2, h3⟩ := partDrawOp_sound h part op hop
  exact ⟨⟨h1, h2⟩, h3⟩

/-- C7: `cropAndResizeImage` clamps the requested rectangle to the source
raster: the clamped origin is never negative and the clamped region never
extends past the raster's far edges (so any successful call reads only from
within the source); the call succeeds exactly when both clamped dimensions
are positive (failing with the invalid-crop-size error otherwise); and a
rectangle with x = -10 and width 50 on a 100×100 raster is clamped to
x = 0, width 40. -/
theorem cropAndResizeImage_clamps (imgW imgH : ℚ) (rect : CropRect) (dpr : ℚ)
    (tw th : Option ℚ) :
    (0 ≤ (clampCrop imgW imgH rect).x ∧
      (clampCrop imgW imgH rect).x + (clampCrop imgW imgH rect).width ≤ imgW ∧
      0 ≤ (clampCrop imgW imgH rect).y ∧
      (clampCrop imgW imgH rect).y + (clampCrop imgW imgH rect).height ≤ imgH) ∧
    exceptOk (cropAndResizeImage imgW imgH rect dpr tw th) =
      (decide (0 < (clampCrop imgW imgH rect).width) &&
        decide (0 < (clampCrop imgW imgH rect).height)) ∧
    clampCrop 100 100 ⟨-10, 0, 50, 50⟩ = ⟨0, 0, 40, 50⟩ := by
  refine ⟨?_, ?_, ?_⟩
  · simp only [clampCrop]
    split_ifs <;>
      exact ⟨by linarith, by linarith, by linarith, by linarith⟩
  · simp only [cropAndResizeImage]
    by_cases hfail : (clampCrop imgW imgH rect).width ≤ 0 ∨
        (clampCrop imgW imgH rect).height ≤ 0
    · rw [if_pos hfail]
      rcases hfail with hw | hh
      · simp [exceptOk, decide_eq_false (not_lt.mpr hw)]
      · simp [exceptOk, decide_eq_false (not_lt.mpr hh)]
    · rw [if_neg hfail]
      push_neg at hfail
      simp [exceptOk, hfail.1, hfail.2]
  · simp only [clampCrop, CropRect.mk.injEq]
    norm_num

/-! ## Supporting lemmas: the file-upload tool -/

theorem hasEffect_append (e : Effect) (l1 l2 : List Effect) :
    hasEffect e (l1 ++ l2) = (hasEffect e l1 || hasEffect e l2) := by
  induction l1 with
  | nil => simp [hasEffect]
  | cons a t ih => simp [hasEffect, ih, Bool.or_assoc]

theorem detachDebugger_state (t : ℕ) (st : Finset ℕ) :
    (FileUploadTool.detachDebugger t st).2 = st.erase t := by
  unfold FileUploadTool.detachDebugger
  split
  · rfl
  · rename_i hmem
    exact (Finset.erase_eq_of_not_mem hmem).symm

theorem detachDebugger_no_attach (t u : ℕ) (st : Finset ℕ) :
    hasEffect (Effect.attach u) (FileUploadTool.detachDebugger t st).1 = false := by
  unfold FileUploadTool.detachDebugger
  split <;> simp [hasEffect]

theorem catchCleanup_fst (msg : String) (t : ℕ) (st : Finset ℕ) (effs : List Effect) :
    (FileUploadTool.catchCleanup msg t st effs).1 =
      UploadResult.error ("Error uploading file: " ++ msg) := rfl

theorem catchCleanup_state (msg : String) (t : ℕ) (st : Finset ℕ) (effs : List Effect) :
    (FileUploadTool.catchCleanup msg t st effs).2.2 = st.erase t := by
  simp [FileUploadTool.catchCleanup, detachDebugger_state]

theorem catchCleanup_no_attach (msg : String) (t u : ℕ) (st : Finset ℕ)
    (effs : List Effect) :
    hasEffect (Effect.attach u) (FileUploadTool.catchCleanup msg t st effs).2.1 =
      hasEffect (Effect.attach u) effs := by
  simp [FileUploadTool.catchCleanup, hasEffect_append, detachDebugger_no_attach]

theorem runStages_state (t : ℕ) (files : List String) (st : Finset ℕ) :
    ∀ (L : List (List Effect × Bool × String)) (effs : List Effect),
      (FileUploadTool.runStages t files st L effs).2.2 = st.erase t := by
  intro L
  induction L with
  | nil => intro effs; exact detachDebugger_state t st
  | cons stage rest ih =>
    intro effs
    obtain ⟨es, fails, msg⟩ := stage
    by_cases h : fails = true
    · simp [FileUploadTool.runStages, h, catchCleanup_state]
    · simp [FileUploadTool.runStages, h, ih]

theorem runStages_not_validation (t : ℕ) (files : List String) (st : Finset ℕ) :
    ∀ (L : List (List Effect × Bool × String)) (effs : List Effect),
      isValidationError (FileUploadTool.runStages t files st L effs).1 = false := by
  intro L
  induction L with
  | nil => intro effs; rfl
  | cons stage rest ih =>
    intro effs
    obtain ⟨es, fails, msg⟩ := stage
    by_cases h : fails = true
    · simp [FileUploadTool.runStages, h, FileUploadTool.catchCleanup, isValidationError]
    · simp [FileUploadTool.runStages, h, ih]

theorem runStages_success (t : ℕ) (fs : List String) (st : Finset ℕ) :
    ∀ (L : List (List Effect × Bool × String)) (effs : List Effect)
      (files : List String) (n : ℕ),
      (FileUploadTool.runStages t fs st L effs).1 = UploadResult.success files n →
      files = fs ∧ n = fs.length := by
  intro L
  induction L with
  | nil =>
    intro effs files n h
    simp only [FileUploadTool.runStages, UploadResult.success.injEq] at h
    exact ⟨h.1.symm, h.2.symm⟩
  | cons stage rest ih =>
    intro effs files n h
    obtain ⟨es, fails, msg⟩ := stage
    by_cases hf : fails = true
    · rw [FileUploadTool.runStages, if_pos hf] at h
      exact absurd h (by simp [FileUploadTool.catchCleanup])
    · rw [FileUploadTool.runStages, if_neg hf] at h
      exact ih _ _ _ h

theorem runStages_no_attach (t : ℕ) (files : List String) (st : Finset ℕ) (u : ℕ) :
    ∀ (L : List (List Effect × Bool × String)) (effs : List Effect),
      (L.all fun stage => !hasEffect (Effect.attach u) stage.1) = true →
      hasEffect (Effect.attach u) (FileUploadTool.runStages t files st L effs).2.1 =
        hasEffect (Effect.attach u) effs := by
  intro L
  induction L with
  | nil =>
    intro effs _
    simp [FileUploadTool.runStages, hasEffect_append, detachDebugger_no_attach]
  | cons stage rest ih =>
    intro effs hall
    obtain ⟨es, fails, msg⟩ := stage
    simp only [List.all_cons, Bool.and_eq_true, Bool.not_eq_true'] at hall
    by_cases hf : fails = true
    · simp [FileUploadTool.runStages, hf, catchCleanup_no_attach, hasEffect_append, hall.1]
    · rw [FileUploadTool.runStages, if_neg hf]
      rw [ih _ (by simpa using hall.2), hasEffect_append, hall.1, Bool.or_false]

theorem uploadStages_no_attach (env : ExecEnv) (t u : ℕ) :
    ((FileUploadTool.uploadStages env t).all fun stage =>
      !hasEffect (Effect.attach u) stage.1) = true := by
  simp [FileUploadTool.uploadStages, hasEffect]

theorem commandChain_state (env : ExecEnv) (t : ℕ) (fs : List String)
    (st : Finset ℕ) (effs : List Effect) :
    (FileUploadTool.commandChain env t fs st effs).2.2 = st.erase t :=
  runStages_state t fs st (FileUploadTool.uploadStages env t) effs

theorem commandChain_not_validation (env : ExecEnv) (t : ℕ) (fs : List String)
    (st : Finset ℕ) (effs : List Effect) :
    isValidationError (FileUploadTool.commandChain env t fs st effs).1 = false :=
  runStages_not_validation t fs st (FileUploadTool.uploadStages env t) effs

theorem commandChain_success (env : ExecEnv) (t : ℕ) (fs : List String)
    (st : Finset ℕ) (effs : List Effect) (files : List String) (n : ℕ)
    (h : (FileUploadTool.commandChain env t fs st effs).1 =
      UploadResult.success files n) :
    files = fs ∧ n = fs.length :=
  runStages_success t fs st (FileUploadTool.uploadStages env t) effs files n h

theorem commandChain_no_attach (env : ExecEnv) (t : ℕ) (fs : List String)
    (st : Finset ℕ) (effs : List Effect) (u : ℕ) :
    hasEffect (Effect.attach u) (FileUploadTool.commandChain env t fs st effs).2.1 =
      hasEffect (Effect.attach u) effs :=
  runStages_no_attach t fs st u (FileUploadTool.uploadStages env t) effs
    (uploadStages_no_attach env t u)

/-- C9: the `chrome.tabs.onRemoved` listener unconditionally deletes the
removed tab's `activeDebuggers` entry: after it runs, the map holds no entry
for that tab, whatever state an in-flight call had left there. -/
theorem onTabRemoved_clears (st : Finset ℕ) (t : ℕ) :
    FileUploadTool.onTabRemoved st t = st.erase t ∧
    decide (t ∈ FileUploadTool.onTabRemoved st t) = false := by
  have h1 : FileUploadTool.onTabRemoved st t = st.erase t := by
    unfold FileUploadTool.onTabRemoved
    split
    · rfl
    · rename_i hmem
      exact (Finset.erase_eq_of_not_mem hmem).symm
  refine ⟨h1, ?_⟩
  rw [h1]
  exact decide_eq_false (Finset.not_mem_erase t st)

/-- C3, counterexample: on the 30-second-timeout completion path the code
resolves null and makes no retry, but it does not remove the
inbound-message listener (zero removals), contradicting the claim that the
listener is removed exactly once on every completion path. -/
theorem prepare_timeout_keeps_listener :
    (FileUploadTool.prepareFileFromRemote FileUploadTool.PrepareOutcome.timeoutFired).resolved = none ∧
    (FileUploadTool.prepareFileFromRemote FileUploadTool.PrepareOutcome.timeoutFired).sendAttempts = 1 ∧
    (FileUploadTool.prepareFileFromRemote FileUploadTool.PrepareOutcome.timeoutFired).listenerAdds = 1 ∧
    (FileUploadTool.prepareFileFromRemote FileUploadTool.PrepareOutcome.timeoutFired).listenerRemoves = 0 :=
  ⟨rfl, rfl, rfl, rfl⟩

/-- C3, amended: every `prepareFileFromRemote` call attaches exactly one
listener and sends exactly once (no retry); the matching-response and
send-failure paths cancel the timer and remove the listener exactly once
(resolving null on send failure); the 30000 ms timeout path resolves null
but leaves the listener attached — it is removed only when a matching
response arrives after the timeout. -/
theorem prepareFileFromRemote_cleanup (o : FileUploadTool.PrepareOutcome) :
    (FileUploadTool.prepareFileFromRemote o).listenerAdds = 1 ∧
    (FileUploadTool.prepareFileFromRemote o).sendAttempts = 1 ∧
    (FileUploadTool.prepareFileFromRemote FileUploadTool.PrepareOutcome.sendFailure).listenerRemoves = 1 ∧
    (FileUploadTool.prepareFileFromRemote FileUploadTool.PrepareOutcome.sendFailure).timerCleared = true ∧
    (FileUploadTool.prepareFileFromRemote FileUploadTool.PrepareOutcome.sendFailure).resolved = none ∧
    (∀ ok fp,
      (FileUploadTool.prepareFileFromRemote (FileUploadTool.PrepareOutcome.responseArrived ok fp)).listenerRemoves = 1 ∧
      (FileUploadTool.prepareFileFromRemote (FileUploadTool.PrepareOutcome.responseArrived ok fp)).timerCleared = true) ∧
    (∀ ok fp,
      (FileUploadTool.prepareFileFromRemote (FileUploadTool.PrepareOutcome.lateResponse ok fp)).resolved = none ∧
      (FileUploadTool.prepareFileFromRemote (FileUploadTool.PrepareOutcome.lateResponse ok fp)).listenerRemoves = 1) ∧
    (FileUploadTool.prepareFileFromRemote FileUploadTool.PrepareOutcome.timeoutFired).listenerRemoves = 0 ∧
    (FileUploadTool.prepareFileFromRemote FileUploadTool.PrepareOutcome.timeoutFired).resolved = none ∧
    FileUploadTool.PREPARE_TIMEOUT_MS = 30000 := by
  refine ⟨?_, ?_, rfl, rfl, rfl, fun ok fp => ⟨rfl, rfl⟩, fun ok fp => ⟨rfl, rfl⟩,
    rfl, rfl, rfl⟩ <;> cases o <;> rfl

theorem attachDebugger_ok (env : ExecEnv) (t : ℕ) (st : Finset ℕ)
    (effs : List Effect) (st1 : Finset ℕ)
    (h : FileUploadTool.attachDebugger env t st = (effs, Except.ok st1)) :
    st1 = st ∨ st1 = insert t st := by
  unfold FileUploadTool.attachDebugger at h
  rcases hfind : findAttachedTarget env.targets t with _ | tgt <;> rw [hfind] at h <;>
    dsimp only at h
  · by_cases hok : env.attachOk = true
    · rw [if_pos hok] at h
      simp only [Prod.mk.injEq] at h
      exact Or.inr (Except.ok.inj h.2).symm
    · rw [if_neg hok] at h
      simp only [Prod.mk.injEq] at h
      exact absurd h.2 (by simp)
  · by_cases hbeq : (tgt.extensionId == some env.runtimeId) = true
    · rw [if_pos hbeq] at h
      simp only [Prod.mk.injEq] at h
      exact Or.inl (Except.ok.inj h.2).symm
    · rw [if_neg hbeq] at h
      simp only [Prod.mk.injEq] at h
      exact absurd h.2 (by simp)

theorem executeWithFiles_state (env : ExecEnv) (t : ℕ) (files : List String)
    (st : Finset ℕ) :
    (FileUploadTool.executeWithFiles env t files st).2.2 ⊆ st := by
  unfold FileUploadTool.executeWithFiles
  rcases hatt : FileUploadTool.attachDebugger env t st with ⟨effs, r⟩
  cases r with
  | error msg =>
    simp only [catchCleanup_state]
    exact Finset.erase_subset _ _
  | ok st1 =>
    simp only [commandChain_state]
    rcases attachDebugger_ok env t st effs st1 hatt with rfl | rfl
    · exact Finset.erase_subset _ _
    · intro x hx
      rcases Finset.mem_erase.mp hx with ⟨hne, hmem⟩
      rcases Finset.mem_insert.mp hmem with rfl | hmem'
      · exact absurd rfl hne
      · exact hmem'

theorem executeWithFiles_not_validation (env : ExecEnv) (t : ℕ)
    (files : List String) (st : Finset ℕ) :
    isValidationError (FileUploadTool.executeWithFiles env t files st).1 = false := by
  unfold FileUploadTool.executeWithFiles
  rcases FileUploadTool.attachDebugger env t st with ⟨effs, r⟩
  cases r with
  | error msg => simp [FileUploadTool.catchCleanup, isValidationError]
  | ok st1 => exact commandChain_not_validation env t files st1 effs

theorem executeWithFiles_success (env : ExecEnv) (t : ℕ) (fs : List String)
    (st : Finset ℕ) (files : List String) (n : ℕ)
    (h : (FileUploadTool.executeWithFiles env t fs st).1 =
      UploadResult.success files n) :
    files = fs ∧ n = fs.length := by
  unfold FileUploadTool.executeWithFiles at h
  rcases hatt : FileUploadTool.attachDebugger env t st with ⟨effs, r⟩
  rw [hatt] at h
  cases r with
  | error msg => exact absurd h (by simp [FileUploadTool.catchCleanup])
  | ok st1 => exact commandChain_success env t fs st1 effs files n h

/-- C4: one `execute` call never leaves a new `activeDebuggers` entry behind:
whatever the environment does, the final map is a subset of the initial map
(every recorded attachment is released before the call returns, on success
and on every failure path alike), so any sequence of completed `execute`
calls starting from an empty map ends with an empty map. -/
theorem execute_session_balance (p : FileUploadToolParams) (env : ExecEnv)
    (st : Finset ℕ) :
    (FileUploadTool.execute p env st).2.2 ⊆ st := by
  unfold FileUploadTool.execute
  by_cases h1 : (p.selector == "") = true
  · simp [h1]
  · rw [if_neg h1]
    by_cases h2 : (!truthyStr p.filePath && !truthyStr p.fileUrl &&
        !truthyStr p.base64Data) = true
    · simp [h2]
    · rw [if_neg h2]
      cases htab : env.activeTabId with
      | none => simp
      | some t =>
        simp only
        by_cases hfp : truthyStr p.filePath = true
        · rw [if_pos hfp]
          exact executeWithFiles_state env t _ st
        · rw [if_neg hfp]
          cases env.prepareFileResult with
          | none => simp
          | some path => exact executeWithFiles_state env t _ st

/-- C2 (amended): `execute` fails with a validation error exactly when the
selector is empty or no source at all is supplied (and then performs no
debugger work and leaves the session map untouched); supplying several
sources at once is not rejected — a present `filePath` simply takes
precedence over `fileUrl`/`base64Data`. -/
theorem execute_validation (p : FileUploadToolParams) (env : ExecEnv) (st : Finset ℕ) :
    isValidationError (FileUploadTool.execute p env st).1 =
      (p.selector == "" ||
        (!truthyStr p.filePath && !truthyStr p.fileUrl && !truthyStr p.base64Data)) ∧
    ((p.selector == "" ||
        (!truthyStr p.filePath && !truthyStr p.fileUrl && !truthyStr p.base64Data)) = true →
      (FileUploadTool.execute p env st).2.1 = [] ∧
        (FileUploadTool.execute p env st).2.2 = st) := by
  constructor
  · unfold FileUploadTool.execute
    by_cases h1 : (p.selector == "") = true
    · simp [h1, isValidationError]
    · rw [if_neg h1]
      by_cases h2 : (!truthyStr p.filePath && !truthyStr p.fileUrl &&
          !truthyStr p.base64Data) = true
      · simp [h1, h2, isValidationError]
      · rw [if_neg h2]
        rw [Bool.not_eq_true] at h1 h2
        rw [h1, h2, Bool.false_or]
        cases htab : env.activeTabId with
        | none => rfl
        | some t =>
          dsimp only
          by_cases hfp : truthyStr p.filePath = true
          · rw [if_pos hfp]
            exact executeWithFiles_not_validation env t _ st
          · rw [if_neg hfp]
            cases env.prepareFileResult with
            | none => rfl
            | some path => exact executeWithFiles_not_validation env t _ st
  · intro hcond
    unfold FileUploadTool.execute
    by_cases h1 : (p.selector == "") = true
    · rw [if_pos h1]
      exact ⟨rfl, rfl⟩
    · have h2 : (!truthyStr p.filePath && !truthyStr p.fileUrl &&
          !truthyStr p.base64Data) = true := by
        rcases Bool.or_eq_true_iff.mp hcond with h | h
        · exact absurd h h1
        · exact h
      rw [if_neg h1, if_pos h2]
      exact ⟨rfl, rfl⟩

/-- C2, counterexample: a call supplying both a local path and a remote URL
at once (with a non-empty selector) is not rejected with a validation
error: it runs to success using the local path and does issue debugger
commands, contrary to the claim's exactly-one-source precondition. -/
theorem execute_two_sources_accepted :
    (FileUploadTool.execute bothSourcesParams benignEnv ∅).1 =
      UploadResult.success ["/tmp/a.png"] 1 ∧
    hasEffect (Effect.cmd 1 CdpStep.setFileInputFiles)
      (FileUploadTool.execute bothSourcesParams benignEnv ∅).2.1 = true := by
  exact ⟨by decide, by decide⟩

theorem execute_validation_witness :
    (FileUploadTool.execute emptySelectorParams benignEnv ∅).2.1 = [] ∧
    (FileUploadTool.execute emptySelectorParams benignEnv ∅).2.2 = ∅ :=
  (execute_validation emptySelectorParams benignEnv ∅).2 (by decide)

/-- C5: when the active tab already has an attached debugger target, one of
two things happens.  If the target belongs to a different owner, `execute`
fails with the attachment-conflict error and the only debugger interaction
is the `getTargets` inspection — no command, attach or detach is issued
against the tab.  If the target belongs to this extension, attachment is an
idempotent no-op: execution proceeds with no `attach` call at all. -/
theorem execute_attachment_conflict (p : FileUploadToolParams) (env : ExecEnv)
    (st : Finset ℕ) (t : ℕ) (tgt : DebuggerTarget)
    (hsel : (p.selector == "") = false)
    (hfp : truthyStr p.filePath = true)
    (htab : env.activeTabId = some t)
    (hst : t ∉ st)
    (hfind : findAttachedTarget env.targets t = some tgt) :
    ((tgt.extensionId == some env.runtimeId) = false ∧
      (FileUploadTool.execute p env st).1 =
        UploadResult.error ("Error uploading file: " ++ attachedElsewhereMsg) ∧
      (FileUploadTool.execute p env st).2.1 = [Effect.getTargets]) ∨
    ((tgt.extensionId == some env.runtimeId) = true ∧
      hasEffect (Effect.attach t) (FileUploadTool.execute p env st).2.1 = false) := by
  have hexec : FileUploadTool.execute p env st =
      FileUploadTool.executeWithFiles env t [p.filePath.getD ""] st := by
    unfold FileUploadTool.execute
    rw [if_neg (by simp [hsel]), if_neg (by simp [hfp]), htab]
    dsimp only
    rw [if_pos hfp]
  by_cases hbeq : (tgt.extensionId == some env.runtimeId) = true
  · right
    refine ⟨hbeq, ?_⟩
    have hatt : FileUploadTool.attachDebugger env t st =
        ([Effect.getTargets], Except.ok st) := by
      unfold FileUploadTool.attachDebugger
      rw [hfind]
      dsimp only
      rw [if_pos hbeq]
    rw [hexec]
    unfold FileUploadTool.executeWithFiles
    rw [hatt]
    dsimp only
    rw [commandChain_no_attach]
    simp [hasEffect]
  · left
    rw [Bool.not_eq_true] at hbeq
    refine ⟨hbeq, ?_, ?_⟩ <;>
    · have hatt : FileUploadTool.attachDebugger env t st =
          ([Effect.getTargets], Except.error attachedElsewhereMsg) := by
        unfold FileUploadTool.attachDebugger
        rw [hfind]
        dsimp only
        rw [if_neg (by simp [hbeq])]
      have hdet : FileUploadTool.detachDebugger t st = ([], st) := by
        unfold FileUploadTool.detachDebugger
        rw [if_neg hst]
      rw [hexec]
      unfold FileUploadTool.executeWithFiles
      rw [hatt]
      dsimp only
      simp [FileUploadTool.catchCleanup, hdet]

theorem execute_attachment_conflict_witness :
    (((DebuggerTarget.mk (some 1) true (some "other-extension")).extensionId ==
        some foreignAttachEnv.runtimeId) = false ∧
      (FileUploadTool.execute localPathParams foreignAttachEnv ∅).1 =
        UploadResult.error ("Error uploading file: " ++ attachedElsewhereMsg) ∧
      (FileUploadTool.execute localPathParams foreignAttachEnv ∅).2.1 =
        [Effect.getTargets]) ∨
    (((DebuggerTarget.mk (some 1) true (some "other-extension")).extensionId ==
        some foreignAttachEnv.runtimeId) = true ∧
      hasEffect (Effect.attach 1)
        (FileUploadTool.execute localPathParams foreignAttachEnv ∅).2.1 = false) :=
  execute_attachment_conflict localPathParams foreignAttachEnv ∅ 1
    (DebuggerTarget.mk (some 1) true (some "other-extension"))
    (by decide) (by decide) rfl (by decide) (by decide)

/-- C10: every successful `execute` call stages exactly one file — the
returned file list is a singleton and the returned count is 1 — and the
`multiple` option is accepted but never consulted: flipping it does not
change the call's result at all. -/
theorem execute_single_file (p : FileUploadToolParams) (env : ExecEnv)
    (st : Finset ℕ) (files : List String) (n : ℕ)
    (h : (FileUploadTool.execute p env st).1 = UploadResult.success files n) :
    files.length = 1 ∧ n = 1 ∧
    FileUploadTool.execute { p with multiple := true } env st =
      FileUploadTool.execute p env st ∧
    FileUploadTool.execute { p with multiple := false } env st =
      FileUploadTool.execute p env st := by
  have hmult : ∀ b, FileUploadTool.execute { p with multiple := b } env st =
      FileUploadTool.execute p env st := by
    intro b
    cases p
    rfl
  have hfn : files.length = 1 ∧ n = 1 := by
    unfold FileUploadTool.execute at h
    by_cases h1 : (p.selector == "") = true
    · rw [if_pos h1] at h
      exact absurd h (by simp)
    · rw [if_neg h1] at h
      by_cases h2 : (!truthyStr p.filePath && !truthyStr p.fileUrl &&
          !truthyStr p.base64Data) = true
      · rw [if_pos h2] at h
        exact absurd h (by simp)
      · rw [if_neg h2] at h
        cases htab : env.activeTabId with
        | none =>
          rw [htab] at h
          exact absurd h (by simp)
        | some t =>
          rw [htab] at h
          dsimp only at h
          by_cases hfp : truthyStr p.filePath = true
          · rw [if_pos hfp] at h
            obtain ⟨rfl, rfl⟩ := executeWithFiles_success _ _ _ _ _ _ h
            exact ⟨rfl, rfl⟩
          · rw [if_neg hfp] at h
            cases hprep : env.prepareFileResult with
            | none =>
              rw [hprep] at h
              exact absurd h (by simp)
            | some path =>
              rw [hprep] at h
              dsimp only at h
              obtain ⟨rfl, rfl⟩ := executeWithFiles_success _ _ _ _ _ _ h
              exact ⟨rfl, rfl⟩
  exact ⟨hfn.1, hfn.2, hmult true, hmult false⟩

theorem execute_single_file_witness :
    (["/tmp/a.png"] : List String).length = 1 ∧ (1 : ℕ) = 1 ∧
    FileUploadTool.execute { localPathParams with multiple := true } benignEnv ∅ =
      FileUploadTool.execute localPathParams benignEnv ∅ ∧
    FileUploadTool.execute { localPathParams with multiple := false } benignEnv ∅ =
      FileUploadTool.execute localPathParams benignEnv ∅ :=
  execute_single_file localPathParams benignEnv ∅ ["/tmp/a.png"] 1 (by decide)

theorem execute_session_balance_witness :
    (FileUploadTool.execute localPathParams benignEnv ∅).2.2 ⊆ ∅ :=
  execute_session_balance localPathParams benignEnv ∅
